import Mathlib

/-!
Verification of the mini_snowflake distributed query engine core.

This file is a shallow embedding of the repository's Python sources:
  * `src/mini_snowflake/parser/parser.py`        (SQL-subset parser)
  * `src/mini_snowflake/orchestrator/query_maker.py` (map/reduce statement builder)
  * `src/mini_snowflake/orchestrator/orchestrator.py` (fanout, planner, dispatch)
  * `src/mini_snowflake/orquestrator/worker_registry.py` (worker registry)
  * `src/mini_snowflake/common/manifest.py`      (manifest JSON loading)
  * `src/mini_snowflake/worker/worker.py`        (worker-side insert)

Python strings are modelled as `List Char` / `String`; Python exceptions as
`Except String`; Python `None` as `Option`.  Machine floats appear only in
`_get_fanout` (`math.log2` + `round`), modelled by exact integer arithmetic
(see `roundLog2Search`).
-/

set_option maxRecDepth 8000

namespace MiniSnowflake

/-! ## Python string primitives -/

/-- Python `str.replace(pat, rep)`: replace all non-overlapping occurrences,
scanning left to right.  (Our call sites always use a non-empty pattern; the
`p ≠ []` guard makes the empty-pattern case a no-op instead of Python's
insert-everywhere behaviour, which never occurs in the source.) -/
def replaceAllFuel (p r : List Char) : Nat → List Char → List Char
  | 0, l => l
  | _, [] => []
  | fuel + 1, c :: cs =>
    if p ≠ [] ∧ p.isPrefixOf (c :: cs) then
      r ++ replaceAllFuel p r fuel (cs.drop (p.length - 1))
    else
      c :: replaceAllFuel p r fuel cs

def replaceAll (p r : List Char) (l : List Char) : List Char :=
  replaceAllFuel p r l.length l

/-- First single quote: returns the part before it and the part after it. -/
def splitQuote : List Char → Option (List Char × List Char)
  | [] => none
  | c :: cs =>
    if c = '\'' then some ([], cs)
    else
      match splitQuote cs with
      | none => none
      | some (a, b) => some (c :: a, b)

/-- `lower_outside_quotes` (parser.py:22-24): split on `('.*?')`, lowercase the
non-quoted parts, keep quoted regions verbatim.  Consecutive quotes pair up; an
unpaired trailing quote belongs to a lowered region.  (The regex `.` does not
cross newlines; quoted literals are assumed newline-free here.)  Recursion is
fueled by the list length, which is always sufficient since each step consumes
at least two characters. -/
def lowqFuel : Nat → List Char → List Char
  | 0, l => l
  | fuel + 1, l =>
    match splitQuote l with
    | none => l.map Char.toLower
    | some (before, rest) =>
      match splitQuote rest with
      | none => l.map Char.toLower
      | some (mid, rest2) =>
        before.map Char.toLower ++ '\'' :: (mid ++ '\'' :: lowqFuel fuel rest2)

def lowerOutsideQuotes (l : List Char) : List Char :=
  lowqFuel l.length l

/-- Python `str.split()` whitespace class (the characters that occur here). -/
def isWs (c : Char) : Bool :=
  c == ' ' || c == '\n' || c == '\t' || c == '\r' || c == '\x0b' || c == '\x0c'

/-- Python `str.split()` with no argument: split on whitespace runs, dropping
empty pieces.  `acc` holds the current token reversed. -/
def splitWsAux : List Char → List Char → List String
  | [], acc => if acc.isEmpty then [] else [String.mk acc.reverse]
  | c :: cs, acc =>
    if isWs c then
      if acc.isEmpty then splitWsAux cs []
      else String.mk acc.reverse :: splitWsAux cs []
    else
      splitWsAux cs (c :: acc)

def pyTokens (s : String) : List String := splitWsAux s.data []

/-- `preprocess_query` (parser.py:27-39): lowercase outside quotes, then the
replacement chain in source order. -/
def preprocess (s : String) : String :=
  String.mk
    (replaceAll "rows per shard".data "rows_per_shard".data
      (replaceAll "if exists".data "if_exists".data
        (replaceAll "if not exists".data "if_not_exists".data
          (replaceAll "is not null".data "is_not_null".data
            (replaceAll "is null".data "is_null".data
              (replaceAll ")".data " ) ".data
                (replaceAll "(".data " ( ".data
                  (replaceAll ",".data " , ".data
                    (replaceAll "group by".data "group_by".data
                      (lowerOutsideQuotes s.data))))))))))

/-! ## Parsed query model (parser/models.py as constructed by parser.py) -/

/-- `ColumnRef` / `AggExpr` (one select-list item). -/
inductive SelItem where
  | colRef (name : String) (aliasName : Option String)
  | aggExpr (func : String) (col : Option String) (aliasName : Option String)
deriving DecidableEq, Repr

/-- Literal produced by `num_cast` (parser.py:211-218).  A float literal is
kept as its source text: the parser never computes with it. -/
inductive PyLit where
  | pint (n : Int)
  | pfloat (raw : String)
  | pstr (s : String)
deriving DecidableEq, Repr

/-- `PredicateTerm`. -/
structure PredTerm where
  col : String
  op : String
  value : Option PyLit
deriving DecidableEq, Repr

/-- `SelectQuery`.  `select` and `where` items are `Option`s because
`parse_select_col` / `parse_where_expr` swallow their exceptions and return
Python `None` on malformed pieces. -/
structure SelectQuery where
  table : String
  select : List (Option SelItem)
  whereCl : Option (List (Option PredTerm))
  groupBy : Option (List String)
deriving DecidableEq, Repr

structure ColumnInfo where
  name : String
  type : String
  nullable : Bool
deriving DecidableEq, Repr

structure CreateQuery where
  table : String
  schema : List ColumnInfo
  ifNotExists : Bool
deriving DecidableEq, Repr

structure InsertQuery where
  table : String
  srcPath : String
  rowsPerShard : Option Int
deriving DecidableEq, Repr

structure DropQuery where
  table : String
  ifExists : Bool
deriving DecidableEq, Repr

inductive ParsedQuery where
  | selectQ (q : SelectQuery)
  | createQ (q : CreateQuery)
  | insertQ (q : InsertQuery)
  | dropQ (q : DropQuery)
deriving DecidableEq, Repr

/-! ## The parser (parser.py) -/

def aggFuncStr : List String := ["count", "sum", "min", "max", "avg"]
def cmpStr : List String := ["=", "!=", "<", "<=", ">", ">="]
def nullCondStr : List String := ["is_null", "is_not_null"]

/-- The comma/`and` grouping loop used by `parse_select_cols`, `parse_where`
and `parse_create` (all share the same quirky pattern: the last token is
appended before the flush, so a trailing separator lands inside the last
group).  `col` is the running buffer. -/
def splitSepLoop (sep : String) : List String → List String → List (List String)
  | [], _ => []
  | [t], col => [col ++ [t]]
  | t :: rest, col =>
    if t = sep then col :: splitSepLoop sep rest []
    else splitSepLoop sep rest (col ++ [t])

def splitSep (sep : String) (toks : List String) : List (List String) :=
  splitSepLoop sep toks []

/-- `parse_select_col` (parser.py:171-195).  Any internal assertion failure or
index error is caught and printed, yielding Python `None`. -/
def parseSelectCol (toks : List String) : Option SelItem :=
  match toks with
  | [] => none
  | t0 :: rest =>
    if aggFuncStr.contains t0 then
      match rest with
      | t1 :: t2 :: t3 :: rest2 =>
        if t1 = "(" ∧ t3 = ")" then
          match rest2 with
          | [] => some (.aggExpr t0 (some t2) none)
          | [_] => none
          | t4 :: t5 :: _ =>
            if t4 = "as" then some (.aggExpr t0 (some t2) (some t5)) else none
        else none
      | _ => none
    else
      match toks with
      | [a] => some (.colRef a none)
      | [a, b, c] => if b = "as" then some (.colRef a (some c)) else none
      | _ => none

def parseSelectCols (toks : List String) : List (Option SelItem) :=
  (splitSep "," toks).map parseSelectCol

/-- Python `str.isdigit` restricted to ASCII. -/
def allDigits (s : String) : Bool :=
  !s.data.isEmpty && s.data.all (fun c => c.isDigit)

def digitsToInt (s : String) : Int :=
  s.data.foldl (fun n c => n * 10 + (c.toNat - '0'.toNat)) 0

/-- `num_cast` (parser.py:211-218). -/
def numCast (s : String) : Except String PyLit :=
  if allDigits s then .ok (.pint (digitsToInt s))
  else if (s.data.count '.') = 1 ∧ allDigits (String.mk (s.data.filter (fun c => c ≠ '.'))) then
    .ok (.pfloat s)
  else if s.data.head? = some '\'' ∧ s.data.getLast? = some '\'' then
    .ok (.pstr (String.mk (s.data.drop 1).dropLast))
  else .error ("Cannot parse expresion " ++ s)

/-- `parse_where_expr` (parser.py:221-241); exceptions are caught → `None`. -/
def parseWhereExpr (toks : List String) : Option PredTerm :=
  match toks with
  | [a, b] => if nullCondStr.contains b then some ⟨a, b, none⟩ else none
  | [a, b, c] =>
    if cmpStr.contains b then
      match numCast c with
      | .ok v => some ⟨a, b, some v⟩
      | .error _ => none
    else none
  | _ => none

def parseWhere (toks : List String) : List (Option PredTerm) :=
  (splitSep "and" toks).map parseWhereExpr

/-- `parse_groupby` (parser.py:244-257).  For a single token the token list
itself is returned; for every other length the loop either trips an assert or
reaches the unconditional `raise`, both caught → `None`. -/
def parseGroupby (toks : List String) : Option (List String) :=
  if toks.length = 1 then some toks else none

/-- First index of `x`, Python `list.index` (raises when absent → `none`). -/
def idxOf (x : String) : List String → Option Nat
  | [] => none
  | t :: ts => if t = x then some 0 else (idxOf x ts).map (· + 1)

/-- `parse_select` (parser.py:137-154).  Note the two source quirks:
`toks.index("group_by")` is evaluated whenever a `where` clause is present
(ValueError when absent), and the group-by slice is `toks[i+1:-1]`, dropping
the final token. -/
def parseSelect (toks : List String) : Except String SelectQuery := do
  let fromIdx ← match idxOf "from" toks with
    | none => .error "ValueError: 'from' is not in list"
    | some i => .ok i
  let selectRows := parseSelectCols (toks.take fromIdx)
  let tableName ← match toks.get? (fromIdx + 1) with
    | none => .error "IndexError: list index out of range"
    | some t => .ok t
  let whereRows ← (if toks.contains "where" then do
      let wIdx ← match idxOf "where" toks with
        | none => .error "ValueError: 'where' is not in list"
        | some i => .ok i
      let gIdx ← match idxOf "group_by" toks with
        | none => .error "ValueError: 'group_by' is not in list"
        | some i => .ok i
      .ok (some (parseWhere ((toks.drop (wIdx + 1)).take (gIdx - (wIdx + 1)))))
    else .ok none)
  let groupbyTables ← (if toks.contains "group_by" then do
      let gIdx ← match idxOf "group_by" toks with
        | none => .error "ValueError: 'group_by' is not in list"
        | some i => .ok i
      .ok (parseGroupby ((toks.drop (gIdx + 1)).dropLast))
    else .ok none)
  .ok ⟨tableName, selectRows, whereRows, groupbyTables⟩

/-- `parse_create_col` (parser.py:117-134); raises `TypeError` (propagated). -/
def parseCreateCol (toks : List String) : Except String ColumnInfo :=
  match toks with
  | [a, b] => .ok ⟨a, b, true⟩
  | [a, b, c] =>
    if c = "is_not_null" then .ok ⟨a, b, false⟩
    else .error "TypeError: Error parsing column"
  | _ => .error "TypeError: Error parsing column"

/-- `parse_create` (parser.py:86-114). -/
def parseCreate (toks : List String) : Except String CreateQuery := do
  match toks with
  | [] => .error "IndexError: list index out of range"
  | t0 :: _ =>
    if t0 ≠ "table" then .error "AssertionError" else
    let ifNot := toks.getLast? = some "if_not_exists"
    let toks := if ifNot then toks.dropLast else toks
    match toks.get? 2, toks.getLast? with
    | some l, some r =>
      if l = "(" ∧ r = ")" then do
        let table ← match toks.get? 1 with
          | none => .error "IndexError"
          | some t => .ok t
        let cols := splitSep "," ((toks.drop 3).dropLast)
        let schema ← cols.mapM parseCreateCol
        .ok ⟨table, schema, ifNot⟩
      else .error "AssertionError"
    | _, _ => .error "IndexError: list index out of range"

/-- `parse_insert` (parser.py:68-83). -/
def parseInsert (toks : List String) : Except String InsertQuery :=
  match toks with
  | [t0, t1, t2, t3] =>
    if t0 = "into" ∧ t2 = "from" then .ok ⟨t1, t3, none⟩
    else .error "TypeError: Error parsing insert"
  | [t0, t1, t2, t3, t4, t5] =>
    if t0 = "into" ∧ t2 = "from" ∧ t4 = "rows_per_shard" ∧ allDigits t5 then
      .ok ⟨t1, t3, some (digitsToInt t5)⟩
    else .error "TypeError: Error parsing insert"
  | _ => .error "TypeError: Error parsing insert"

/-- `parse_drop` (parser.py:57-65). -/
def parseDrop (toks : List String) : Except String DropQuery :=
  match toks with
  | [t0, t1] =>
    if t0 = "table" then .ok ⟨t1, false⟩ else .error "AssertionError"
  | [t0, t1, t2] =>
    if t0 = "table" ∧ t2 = "if_exists" then .ok ⟨t1, true⟩
    else .error "AssertionError"
  | _ => .error "TypeError: Invalid tokenization"

/-- Dispatch of `parse` (parser.py:42-54) after preprocessing and splitting. -/
def parseToks (toks : List String) : Except String ParsedQuery :=
  match toks with
  | [] => .error "IndexError: list index out of range"
  | t0 :: rest =>
    if t0 = "select" then (parseSelect rest).map .selectQ
    else if t0 = "create" then (parseCreate rest).map .createQ
    else if t0 = "insert" then (parseInsert rest).map .insertQ
    else if t0 = "drop" then (parseDrop rest).map .dropQ
    else .error ("Error at token (0) " ++ t0)

/-- `parse` (parser.py:42-54). -/
def parse (s : String) : Except String ParsedQuery :=
  parseToks (pyTokens (preprocess s))

/-! ## Worker registry (orquestrator/worker_registry.py) -/

/-- `WorkerInfo`.  `last_seen` is a UTC instant, modelled as an integer
timestamp; `load` plays no role in liveness. -/
structure WorkerInfo where
  worker_id : String
  base_url : String
  last_seen : Int
  load : Int
deriving DecidableEq, Repr

/-- `WorkerRegistry`: a dict `worker_id → WorkerInfo`, modelled as an
association list in insertion order (Python dicts preserve it). -/
structure WorkerRegistry where
  ttl : Int
  workers : List (String × WorkerInfo)
deriving DecidableEq, Repr

/-- `upsert`: dict assignment — an existing key keeps its position, a new key
is appended. -/
def upsert (reg : WorkerRegistry) (wid burl : String) (load now : Int) : WorkerRegistry :=
  let w : WorkerInfo := ⟨wid, burl, now, load⟩
  if reg.workers.any (fun p => p.1 == wid) then
    { reg with workers := reg.workers.map (fun p => if p.1 == wid then (wid, w) else p) }
  else
    { reg with workers := reg.workers ++ [(wid, w)] }

/-- `list_active` (worker_registry.py:38-40): entries with
`now - last_seen ≤ ttl`, in iteration order. -/
def listActive (reg : WorkerRegistry) (now : Int) : List WorkerInfo :=
  (reg.workers.map Prod.snd).filter (fun w => now - w.last_seen ≤ reg.ttl)

/-- Modelled from the spec: `choose_worker` is called by
`orchestrator._get_first_worker_blocking` (orchestrator.py:212) but no
definition exists under src/ (the `WorkerRegistry` class defines only
`upsert`, `heartbeat` and `list_active`).  Spec §4.4: "the reference policy is
the first entry of `list_active()`". -/
def chooseWorker (reg : WorkerRegistry) (now : Int) : Option WorkerInfo :=
  (listActive reg now).head?

/-! ## Fanout and planner level structure (orchestrator.py) -/

def R_target : Nat := 16000000
def k_min : Nat := 2
def k_max : Nat := 256

/-- `int(round(math.log2(R / m)))` for `R > m ≥ 1`, modelled exactly: the
least `e` with `R² < 2^(2e+1)·m²`, i.e. the unique `e` with
`2^(e-1/2) ≤ R/m < 2^(e+1/2)` (a tie `R/m = 2^(e+1/2)` is impossible for a
rational ratio, so banker's rounding never kicks in).  The search fuel 64 far
exceeds `log2 R`. -/
def roundLog2Search (R m : Nat) : Nat :=
  go 64 0
where
  go : Nat → Nat → Nat
    | 0, e => e
    | fuel + 1, e => if R ^ 2 < 2 ^ (2 * e + 1) * m ^ 2 then e else go fuel (e + 1)

/-- `_get_fanout` (orchestrator.py:130-138) at its default parameters.
`ratio = R/max(1,n) ≤ 1` iff `R ≤ max(1,n)`. -/
def getFanout (n : Nat) : Nat :=
  max k_min
    (min (if R_target ≤ max 1 n then 1 else 2 ^ roundLog2Search R_target (max 1 n))
      k_max)

/-- Chunk count of `range(0, n, fanout)`. -/
def ceilDiv (n f : Nat) : Nat := (n + f - 1) / f

/-- The `while len(current_paths) > fanout` loop of `_planner`
(orchestrator.py:171-190), tracking only `len(current_paths)`: each pass
replaces the path list by one path per chunk.  Returns (number of
intermediate reduce levels emitted, final `len(current_paths)`).  Fuel `n`
suffices for any fanout ≥ 2. -/
def reduceLoop (f : Nat) : Nat → Nat → Nat × Nat
  | 0, n => (0, n)
  | fuel + 1, n =>
    if f < n then
      let (lv, fin) := reduceLoop f fuel (ceilDiv n f)
      (lv + 1, fin)
    else (0, n)

/-- Number of intermediate reduce levels `_planner` emits for `numShards`
map outputs. -/
def plannerIntermLevels (numShards : Nat) : Nat :=
  (reduceLoop (getFanout numShards) numShards numShards).1

/-- The `inputs_level` argument passed to `create_final_reduce_job`
(orchestrator.py:197): `"interm" if len(current_paths) > fanout else "map"`,
evaluated after the reduce loop has exited. -/
def plannerFinalInputsLevel (numShards : Nat) : String :=
  let f := getFanout numShards
  if f < (reduceLoop f numShards numShards).2 then "interm" else "map"

/-! ## Query maker (orchestrator/query_maker.py)

The builders return `Except String _` (`raise ValueError/TypeError` → error).
Multiline f-string whitespace is canonicalised to single spaces here; the
source's `_materialize` collapses all whitespace via `" ".join(query.split())`
anyway. -/

def strLower (s : String) : String := String.mk (s.data.map Char.toLower)

/-- `_safe_ident` (query_maker.py:17-21): `None → ""`, else
`x.replace("*","star").replace(".","_").replace("-","_")`. -/
def safeIdent (x : Option String) : String :=
  match x with
  | none => ""
  | some s =>
    String.mk (replaceAll "-".data "_".data
      (replaceAll ".".data "_".data
        (replaceAll "*".data "star".data s.data)))

/-- `_map_alias` (query_maker.py:85-98). -/
def mapAlias (func : String) (col : Option String) : Except String String :=
  let colId := safeIdent (some (col.getD ""))
  let f := strLower func
  if f = "count" then .ok ("c_" ++ colId)
  else if f = "sum" then .ok ("s_" ++ colId)
  else if f = "min" then .ok ("min_" ++ colId)
  else if f = "max" then .ok ("max_" ++ colId)
  else .error ("Unsupported aggregate func: " ++ func)

/-- `_merge_func` (query_maker.py:101-107). -/
def mergeFunc (func : String) : Except String String :=
  let f := strLower func
  if f = "count" ∨ f = "sum" then .ok "sum"
  else if f = "min" ∨ f = "max" then .ok f
  else .error ("Unsupported aggregate func: " ++ func)

/-- `_group_cols` (query_maker.py:40-47). -/
def groupCols (q : SelectQuery) : List String :=
  match q.groupBy with
  | some g => g
  | none =>
    if q.select.any (fun s => match s with | some (.aggExpr ..) => true | _ => false) then
      q.select.filterMap (fun s => match s with | some (.colRef n _) => some n | _ => none)
    else []

/-- `_iter_aggs` (query_maker.py:50-53): the `(func, col, alias)` triples of
the aggregate select items, in order. -/
def iterAggs (q : SelectQuery) : List (String × Option String × Option String) :=
  q.select.filterMap (fun s => match s with
    | some (.aggExpr f c a) => some (f, c, a)
    | _ => none)

/-- `_has_sum_for_col` (query_maker.py:56-62). -/
def hasSumForCol (q : SelectQuery) (col : Option String) :
    Option (String × Option String × Option String) :=
  (iterAggs q).find? (fun t => strLower t.1 == "sum" && t.2.1 == some (col.getD ""))

/-- The `seen`-set insertion of `_required_map_measures`. -/
def addMeasure (key : String × String) (out : List (String × String)) :
    List (String × String) :=
  if key ∈ out then out else out ++ [key]

/-- The body of the `for agg in _iter_aggs(q)` loop of
`_required_map_measures`: `avg` inserts `sum` then `count`, anything else
inserts `(func, col)` itself. -/
def measureStep (out : List (String × String))
    (agg : String × Option String × Option String) : List (String × String) :=
  if strLower agg.1 = "avg" then
    addMeasure ("count", agg.2.1.getD "") (addMeasure ("sum", agg.2.1.getD "") out)
  else
    addMeasure (strLower agg.1, agg.2.1.getD "") out

/-- `_required_map_measures` (query_maker.py:110-132): deduped `(func, col)`
pairs needed at the map level; `avg(x)` expands into `sum(x)` and `count(x)`. -/
def requiredMapMeasures (q : SelectQuery) : List (String × String) :=
  (iterAggs q).foldl measureStep []

/-- The `inputs_level == "map"` arm of the aggregate loop of
`create_final_reduce_select` (query_maker.py:322-359), producing the one
projection string appended for this aggregate. -/
def finalEntryMap (f : String) (c : Option String) (a : Option String) :
    Except String String :=
  let fl := strLower f
  if fl = "avg" then do
    let avgAlias := a.getD ("avg_" ++ safeIdent c)
    let sCol ← mapAlias "sum" c
    let cCol ← mapAlias "count" c
    .ok ("sum(" ++ sCol ++ ") / nullif(sum(" ++ cCol ++ "), 0) AS " ++ avgAlias)
  else if fl = "count" ∧ c = some "*" then
    .ok ("sum(c_star) AS " ++ a.getD "count_star")
  else if fl = "sum" then do
    let m ← mapAlias "sum" c
    .ok ("sum(" ++ m ++ ") AS " ++ a.getD ("sum_" ++ safeIdent c))
  else if fl = "count" then do
    let m ← mapAlias "count" c
    .ok ("sum(" ++ m ++ ") AS " ++ a.getD ("count_" ++ safeIdent c))
  else if fl = "min" then do
    let m ← mapAlias "min" c
    .ok ("min(" ++ m ++ ") AS " ++ a.getD ("min_" ++ safeIdent c))
  else if fl = "max" then do
    let m ← mapAlias "max" c
    .ok ("max(" ++ m ++ ") AS " ++ a.getD ("max_" ++ safeIdent c))
  else .error ("Unsupported aggregate func: " ++ f)

/-- The `inputs_level == "interm"` arm of the aggregate loop of
`create_final_reduce_select` (query_maker.py:361-391). -/
def finalEntryInterm (q : SelectQuery) (f : String) (c : Option String)
    (a : Option String) : Except String String :=
  let fl := strLower f
  if fl = "avg" then
    let avgAlias := a.getD ("avg_" ++ safeIdent c)
    let sumPart :=
      match hasSumForCol q c with
      | some sagg => (sagg.2.2.getD ("sum_" ++ safeIdent sagg.2.1)) ++ "_partial"
      | none => avgAlias ++ "_sum_partial"
    let cntPart := avgAlias ++ "_count_partial"
    .ok ("sum(" ++ sumPart ++ ") / nullif(sum(" ++ cntPart ++ "), 0) AS " ++ avgAlias)
  else if fl = "count" ∧ c = some "*" then
    .ok ("sum(count_star_partial) AS " ++ a.getD "count_star")
  else do
    let inCol :=
      match a with
      | some al => al ++ "_partial"
      | none => fl ++ "_" ++ safeIdent c ++ "_partial"
    let outCol := a.getD (fl ++ "_" ++ safeIdent c)
    let merge ← mergeFunc f
    .ok (merge ++ "(" ++ inCol ++ ") AS " ++ outCol)

/-- The `for item in q.select` loop of `create_final_reduce_select`
(query_maker.py:314-391): `ColumnRef`s are skipped, Python `None` items raise
`TypeError`, each aggregate appends exactly one projection string.  Any
`inputs_level` other than `"map"` takes the `interm` code path, as in the
source. -/
def finalItemsLoop (q : SelectQuery) (lvl : String) :
    List (Option SelItem) → Except String (List String)
  | [] => .ok []
  | item :: rest =>
    match item with
    | some (.colRef _ _) => finalItemsLoop q lvl rest
    | some (.aggExpr f c a) =>
      match (if lvl = "map" then finalEntryMap f c a else finalEntryInterm q f c a) with
      | .error e => .error e
      | .ok entry =>
        match finalItemsLoop q lvl rest with
        | .error e => .error e
        | .ok restCols => .ok (entry :: restCols)
    | none => .error "TypeError: Unsupported select item"

/-- `_sql_source` (query_maker.py:69-74) for string inputs (a `Path` input is
always quoted; the planner passes paths containing `/`). -/
def sqlSource (src : String) : String :=
  if src.data.contains '/' || src.endsWith ".parquet" || src.endsWith ".csv" then
    "'" ++ src ++ "'"
  else src

/-- `_sql_union_all_select_star` (query_maker.py:65-66). -/
def unionAllSelectStar (sources : List String) : String :=
  String.intercalate " UNION ALL " (sources.map (fun s => "SELECT * FROM " ++ sqlSource s))

/-- `create_final_reduce_select` (query_maker.py:283-405). -/
def createFinalReduceSelect (q : SelectQuery) (inputs : List String)
    (lvl : String) : Except String String := do
  let group := groupCols q
  let unionSql := unionAllSelectStar inputs
  if ¬ (q.select.any (fun s => match s with | some (.aggExpr ..) => true | _ => false)) then
    if group ≠ [] then
      .ok ("WITH partial AS ( " ++ unionSql ++ " ) SELECT " ++
        String.intercalate ", " group ++ " FROM partial GROUP BY " ++
        String.intercalate ", " group)
    else
      .ok ("WITH partial AS ( " ++ unionSql ++ " ) SELECT * FROM partial")
  else do
    let cols ← finalItemsLoop q lvl q.select
    let sql := "WITH partial AS ( " ++ unionSql ++ " ) SELECT " ++
      String.intercalate ", " (group ++ cols) ++ " FROM partial"
    .ok (if group ≠ [] then sql ++ " GROUP BY " ++ String.intercalate ", " group else sql)

/-! ## Theorems: registry, fanout, planner levels, parser evaluations -/

/-- C1: if `list_active()` is non-empty then `choose_worker()` (spec-modelled
as the first entry of `list_active()`) succeeds and returns a live worker. -/
theorem choose_worker_live (reg : WorkerRegistry) (now : Int)
    (h : listActive reg now ≠ []) :
    ∃ w, chooseWorker reg now = some w ∧ w ∈ listActive reg now := by
  cases hl : listActive reg now with
  | nil => exact absurd hl h
  | cons w ws =>
    exact ⟨w, by simp [chooseWorker, hl], by simp [hl]⟩

/-- C1 witness: a registry with one fresh worker at `now = 10`, TTL 45. -/
theorem choose_worker_live_witness :
    listActive ⟨45, [("w1", ⟨"w1", "http://w1", 0, 0⟩)]⟩ 10 ≠ [] ∧
    ∃ w, chooseWorker ⟨45, [("w1", ⟨"w1", "http://w1", 0, 0⟩)]⟩ 10 = some w ∧
      w ∈ listActive ⟨45, [("w1", ⟨"w1", "http://w1", 0, 0⟩)]⟩ 10 :=
  ⟨by decide, choose_worker_live _ _ (by decide)⟩

/-- `max k_min (min (2^e) k_max)` is a power of two in `[2, 256]`. -/
theorem clampPow2 (e : Nat) :
    2 ≤ max 2 (min (2 ^ e) 256) ∧ max 2 (min (2 ^ e) 256) ≤ 256 ∧
      ∃ i, max 2 (min (2 ^ e) 256) = 2 ^ i := by
  rcases le_or_lt (2 ^ e) 256 with hle | hgt
  · rw [min_eq_left hle]
    rcases Nat.eq_zero_or_pos e with he | he
    · subst he
      refine ⟨by norm_num, by norm_num, 1, by norm_num⟩
    · have h2 : 2 ≤ 2 ^ e := by
        calc 2 = 2 ^ 1 := rfl
        _ ≤ 2 ^ e := Nat.pow_le_pow_right (by norm_num) he
      rw [max_eq_right h2]
      exact ⟨h2, hle, e, rfl⟩
  · rw [min_eq_right hgt.le]
    refine ⟨by norm_num, by norm_num, 8, by norm_num⟩

/-- C7: for every shard count `n ≥ 1` the planner's fanout is a power of two
with `k_min ≤ k ≤ k_max`. -/
theorem fanout_clamp (n : Nat) (_h : 1 ≤ n) :
    k_min ≤ getFanout n ∧ getFanout n ≤ k_max ∧ ∃ i, getFanout n = 2 ^ i := by
  unfold getFanout k_min k_max
  rcases le_or_lt R_target (max 1 n) with hle | hgt
  · rw [if_pos hle]
    exact ⟨by norm_num, by norm_num, 1, by norm_num⟩
  · rw [if_neg (not_le.mpr hgt)]
    exact clampPow2 (roundLog2Search R_target (max 1 n))

/-- C7 witness: 10 shards give fanout 256 = 2^8. -/
theorem fanout_clamp_witness :
    1 ≤ 10 ∧ k_min ≤ getFanout 10 ∧ getFanout 10 ≤ k_max ∧
      ∃ i, getFanout 10 = 2 ^ i :=
  ⟨by decide, fanout_clamp 10 (by decide)⟩

/-- C2 (evaluation at the failing input): with 300 shards the fanout is 256,
the planner emits exactly one intermediate reduce level, and yet the final
reduce job is generated with `inputs_level = "map"`: the loop exits exactly
when `len(current_paths) ≤ fanout`, so the `"interm"` branch of
orchestrator.py:197 is unreachable. -/
theorem planner_inputs_level_eval :
    getFanout 300 = 256 ∧ plannerIntermLevels 300 = 1 ∧
      plannerFinalInputsLevel 300 = "map" :=
  ⟨rfl, rfl, rfl⟩

/-- C3 (evaluation of the spec's S2 literal): the select list and where list
come out as the spec claims, but `group_by` is `None`, not `["event_type"]`:
`parse_select` slices `toks[i+1:-1]`, dropping the final token, and
`parse_groupby` of the resulting empty list returns `None` through its
exception handler. -/
theorem parse_s2_literal_eval :
    parse "SELECT event_type, COUNT(*), AVG(value) as avg_value FROM events WHERE value >= 0 AND user_id IS NOT NULL GROUP BY event_type" =
      .ok (.selectQ
        { table := "events"
          select := [some (.colRef "event_type" none),
                     some (.aggExpr "count" (some "*") none),
                     some (.aggExpr "avg" (some "value") (some "avg_value"))]
          whereCl := some [some ⟨"value", ">=", some (.pint 0)⟩,
                           some ⟨"user_id", "is_not_null", none⟩]
          groupBy := none }) := by
  rfl

/-- C5 (evaluation at the failing input): a well-formed SELECT with a WHERE
clause but no GROUP BY makes `parse_select` evaluate
`toks.index("group_by")`, which raises `ValueError`. -/
theorem parse_where_without_groupby_eval :
    parse "select a from t where a = 1" =
      .error "ValueError: 'group_by' is not in list" := by
  rfl

/-! ## C4: avg decomposition -/

/-- The projection string `create_final_reduce_select` emits for `avg(x)`
when `inputs_level = "map"`. -/
def avgMapEntry (x : String) (a : Option String) : String :=
  "sum(" ++ ("s_" ++ safeIdent (some x)) ++ ") / nullif(sum(" ++
    ("c_" ++ safeIdent (some x)) ++ "), 0) AS " ++ a.getD ("avg_" ++ safeIdent (some x))

/-- The `sum` partial column consumed for `avg(x)` when
`inputs_level = "interm"`: either the alias of an explicitly requested
`sum(x)` or `<avg alias>_sum_partial`. -/
def avgIntermSumPart (q : SelectQuery) (x : String) (a : Option String) : String :=
  match hasSumForCol q (some x) with
  | some sagg => (sagg.2.2.getD ("sum_" ++ safeIdent sagg.2.1)) ++ "_partial"
  | none => (a.getD ("avg_" ++ safeIdent (some x))) ++ "_sum_partial"

/-- The projection string `create_final_reduce_select` emits for `avg(x)`
when `inputs_level = "interm"`. -/
def avgIntermEntry (q : SelectQuery) (x : String) (a : Option String) : String :=
  "sum(" ++ avgIntermSumPart q x a ++ ") / nullif(sum(" ++
    (a.getD ("avg_" ++ safeIdent (some x)) ++ "_count_partial") ++ "), 0) AS " ++
    a.getD ("avg_" ++ safeIdent (some x))

theorem addMeasure_self (k : String × String) (out : List (String × String)) :
    k ∈ addMeasure k out := by
  unfold addMeasure
  split
  · assumption
  · simp

theorem addMeasure_mono {k : String × String} (k' : String × String)
    {out : List (String × String)} (h : k ∈ out) : k ∈ addMeasure k' out := by
  unfold addMeasure
  split
  · exact h
  · exact List.mem_append_left _ h

theorem addMeasure_elim {k k' : String × String} {out : List (String × String)}
    (h : k ∈ addMeasure k' out) : k = k' ∨ k ∈ out := by
  unfold addMeasure at h
  split at h
  · exact Or.inr h
  · rcases List.mem_append.mp h with h | h
    · exact Or.inr h
    · simp at h
      exact Or.inl h

theorem measureStep_mono {k : String × String} {out : List (String × String)}
    (agg : String × Option String × Option String) (h : k ∈ out) :
    k ∈ measureStep out agg := by
  unfold measureStep
  split
  · exact addMeasure_mono _ (addMeasure_mono _ h)
  · exact addMeasure_mono _ h

theorem foldl_measure_mono {k : String × String} :
    ∀ (l : List (String × Option String × Option String))
      {acc : List (String × String)}, k ∈ acc → k ∈ l.foldl measureStep acc
  | [], _, h => h
  | hd :: tl, _, h => foldl_measure_mono tl (measureStep_mono hd h)

theorem foldl_measure_mem_of_mem {x : String} {a : Option String} :
    ∀ (l : List (String × Option String × Option String))
      (acc : List (String × String)),
      ("avg", some x, a) ∈ l →
      ("sum", x) ∈ l.foldl measureStep acc ∧ ("count", x) ∈ l.foldl measureStep acc := by
  intro l
  induction l with
  | nil => intro acc h; cases h
  | cons hd tl ih =>
    intro acc h
    rcases List.mem_cons.mp h with he | ht
    · subst he
      constructor
      · exact foldl_measure_mono tl (addMeasure_mono _ (addMeasure_self _ _))
      · exact foldl_measure_mono tl (addMeasure_self _ _)
    · exact ih (measureStep acc hd) ht

theorem foldl_measure_no_avg :
    ∀ (l : List (String × Option String × Option String))
      (acc : List (String × String)),
      (∀ c, ("avg", c) ∉ acc) → ∀ c, ("avg", c) ∉ l.foldl measureStep acc := by
  intro l
  induction l with
  | nil => intro acc h; exact h
  | cons hd tl ih =>
    intro acc h
    apply ih
    intro c hc
    unfold measureStep at hc
    by_cases hf : strLower hd.1 = "avg"
    · rw [if_pos hf] at hc
      rcases addMeasure_elim hc with h1 | hc2
      · simp only [Prod.mk.injEq] at h1
        exact absurd h1.1 (by decide)
      · rcases addMeasure_elim hc2 with h2 | hc3
        · simp only [Prod.mk.injEq] at h2
          exact absurd h2.1 (by decide)
        · exact h c hc3
    · rw [if_neg hf] at hc
      rcases addMeasure_elim hc with h1 | hc2
      · simp only [Prod.mk.injEq] at h1
        exact hf h1.1.symm
      · exact h c hc2

theorem mem_iterAggs {q : SelectQuery} {x : String} {a : Option String}
    (hx : some (SelItem.aggExpr "avg" (some x) a) ∈ q.select) :
    ("avg", some x, a) ∈ iterAggs q :=
  List.mem_filterMap.mpr ⟨_, hx, rfl⟩

theorem finalLoop_avg_mem {q : SelectQuery} {x : String} {a : Option String}
    {lvl : String} {E : String}
    (hE : (if lvl = "map" then finalEntryMap "avg" (some x) a
           else finalEntryInterm q "avg" (some x) a) = Except.ok E) :
    ∀ (items : List (Option SelItem)) (L : List String),
      some (SelItem.aggExpr "avg" (some x) a) ∈ items →
      finalItemsLoop q lvl items = .ok L → E ∈ L := by
  intro items
  induction items with
  | nil => intro L h; intro _; cases h
  | cons hd tl ih =>
    intro L hmem hok
    rcases List.mem_cons.mp hmem with he | ht
    · subst he
      cases hr : finalItemsLoop q lvl tl with
      | error e =>
        rw [finalItemsLoop, hE, hr] at hok
        exact absurd hok (by simp)
      | ok rest2 =>
        rw [finalItemsLoop, hE, hr] at hok
        simp only [Except.ok.injEq] at hok
        subst hok
        exact List.mem_cons_self _ _
    · cases hd with
      | none =>
        rw [finalItemsLoop] at hok
        exact absurd hok (by simp)
      | some si =>
        cases si with
        | colRef n al =>
          rw [finalItemsLoop] at hok
          exact ih L ht hok
        | aggExpr f c a2 =>
          cases hent : (if lvl = "map" then finalEntryMap f c a2
                        else finalEntryInterm q f c a2) with
          | error e =>
            rw [finalItemsLoop, hent] at hok
            exact absurd hok (by simp)
          | ok e =>
            cases hr : finalItemsLoop q lvl tl with
            | error e2 =>
              rw [finalItemsLoop, hent, hr] at hok
              exact absurd hok (by simp)
            | ok rest2 =>
              rw [finalItemsLoop, hent, hr] at hok
              simp only [Except.ok.injEq] at hok
              subst hok
              exact List.mem_cons_of_mem _ (ih rest2 ht hr)

/-- C4: every `avg(x)` is decomposed into a `sum(x)` and a `count(x)` map
measure (never an `avg` measure), and the final-reduce projection for it is
`sum(<sum partials>) / nullif(sum(<count partials>), 0)` in both
`inputs_level` modes — sum-of-sums over sum-of-counts, never a mean of
per-shard means. -/
theorem avg_sum_count_decomposition (q : SelectQuery) (x : String)
    (a : Option String)
    (hx : some (SelItem.aggExpr "avg" (some x) a) ∈ q.select) :
    ("sum", x) ∈ requiredMapMeasures q ∧
    ("count", x) ∈ requiredMapMeasures q ∧
    (∀ c, ("avg", c) ∉ requiredMapMeasures q) ∧
    (∀ L, finalItemsLoop q "map" q.select = .ok L → avgMapEntry x a ∈ L) ∧
    (∀ L, finalItemsLoop q "interm" q.select = .ok L → avgIntermEntry q x a ∈ L) := by
  have hiter := mem_iterAggs hx
  have hmm := foldl_measure_mem_of_mem (iterAggs q) [] hiter
  refine ⟨hmm.1, hmm.2, ?_, ?_, ?_⟩
  · exact foldl_measure_no_avg (iterAggs q) [] (by simp)
  · intro L h
    exact finalLoop_avg_mem (by rfl) q.select L hx h
  · intro L h
    exact finalLoop_avg_mem (by rfl) q.select L hx h

/-- C4 witness: a query with `avg(value) AS avg_value` alongside `count(*)`,
grouped by `event_type`. -/
theorem avg_sum_count_decomposition_witness :
    (some (SelItem.aggExpr "avg" (some "value") (some "avg_value")) ∈
      (SelectQuery.mk "events"
        [some (SelItem.colRef "event_type" none),
         some (SelItem.aggExpr "count" (some "*") none),
         some (SelItem.aggExpr "avg" (some "value") (some "avg_value"))]
        none (some ["event_type"])).select) ∧
    (("sum", "value") ∈ requiredMapMeasures
      (SelectQuery.mk "events"
        [some (SelItem.colRef "event_type" none),
         some (SelItem.aggExpr "count" (some "*") none),
         some (SelItem.aggExpr "avg" (some "value") (some "avg_value"))]
        none (some ["event_type"])) ∧
     ("count", "value") ∈ requiredMapMeasures
      (SelectQuery.mk "events"
        [some (SelItem.colRef "event_type" none),
         some (SelItem.aggExpr "count" (some "*") none),
         some (SelItem.aggExpr "avg" (some "value") (some "avg_value"))]
        none (some ["event_type"])) ∧
     (∀ c, ("avg", c) ∉ requiredMapMeasures
      (SelectQuery.mk "events"
        [some (SelItem.colRef "event_type" none),
         some (SelItem.aggExpr "count" (some "*") none),
         some (SelItem.aggExpr "avg" (some "value") (some "avg_value"))]
        none (some ["event_type"]))) ∧
     (∀ L, finalItemsLoop
        (SelectQuery.mk "events"
          [some (SelItem.colRef "event_type" none),
           some (SelItem.aggExpr "count" (some "*") none),
           some (SelItem.aggExpr "avg" (some "value") (some "avg_value"))]
          none (some ["event_type"])) "map"
        (SelectQuery.mk "events"
          [some (SelItem.colRef "event_type" none),
           some (SelItem.aggExpr "count" (some "*") none),
           some (SelItem.aggExpr "avg" (some "value") (some "avg_value"))]
          none (some ["event_type"])).select = .ok L →
        avgMapEntry "value" (some "avg_value") ∈ L) ∧
     (∀ L, finalItemsLoop
        (SelectQuery.mk "events"
          [some (SelItem.colRef "event_type" none),
           some (SelItem.aggExpr "count" (some "*") none),
           some (SelItem.aggExpr "avg" (some "value") (some "avg_value"))]
          none (some ["event_type"])) "interm"
        (SelectQuery.mk "events"
          [some (SelItem.colRef "event_type" none),
           some (SelItem.aggExpr "count" (some "*") none),
           some (SelItem.aggExpr "avg" (some "value") (some "avg_value"))]
          none (some ["event_type"])).select = .ok L →
        avgIntermEntry
          (SelectQuery.mk "events"
            [some (SelItem.colRef "event_type" none),
             some (SelItem.aggExpr "count" (some "*") none),
             some (SelItem.aggExpr "avg" (some "value") (some "avg_value"))]
            none (some ["event_type"])) "value" (some "avg_value") ∈ L)) :=
  ⟨by decide, avg_sum_count_decomposition _ "value" (some "avg_value") (by decide)⟩

/-! ## Manifest loading (common/manifest.py)

`Manifest.load` parses JSON and hands the document to `Manifest.from_dict`;
file reading is IO, so the embedding starts from the parsed JSON value.
Python coercions: `int(x)` / `str(x)` / `bool(x)`. -/

inductive JVal where
  | jnull
  | jbool (b : Bool)
  | jnum (n : Int)
  | jstr (s : String)
  | jarr (xs : List JVal)
  | jobj (fields : List (String × JVal))
deriving Repr

/-- `d.get(k)` on a JSON object (keys are unique; first match). -/
def dget (fields : List (String × JVal)) (k : String) : Option JVal :=
  match fields with
  | [] => none
  | (k', v) :: rest => if k' = k then some v else dget rest k

/-- `d.get(k, dflt)`. -/
def dgetD (fields : List (String × JVal)) (k : String) (dflt : JVal) : JVal :=
  (dget fields k).getD dflt

/-- Python `int(x)`: `int` stays, `bool` becomes 0/1, a digit string (with
optional sign) parses, anything else raises. -/
def pyInt : JVal → Except String Int
  | .jnum n => .ok n
  | .jbool b => .ok (if b then 1 else 0)
  | .jstr s =>
    if allDigits s then .ok (digitsToInt s)
    else if s.startsWith "-" ∧ allDigits (s.drop 1) then .ok (-(digitsToInt (s.drop 1)))
    else .error "ValueError: invalid literal for int()"
  | _ => .error "TypeError: int() argument"

/-- Python `str(x)` — total; the container cases are opaque reprs (they are
never compared in the source). -/
def pyStr : JVal → String
  | .jnull => "None"
  | .jbool b => if b then "True" else "False"
  | .jnum n => toString n
  | .jstr s => s
  | .jarr _ => "<list>"
  | .jobj _ => "<dict>"

/-- Python truthiness `bool(x)`. -/
def pyBool : JVal → Bool
  | .jnull => false
  | .jbool b => b
  | .jnum n => n != 0
  | .jstr s => s ≠ ""
  | .jarr xs => ¬xs.isEmpty
  | .jobj fs => ¬fs.isEmpty

/-- `ColumnInfo.from_dict` (manifest.py:25-33): `d["name"]` / `d["type"]`
raise `KeyError` when missing; `nullable` defaults to `True`.  The subsequent
`validate()` checks `isinstance` of already-coerced values and never fails. -/
def colInfoFromDict (d : JVal) : Except String ColumnInfo :=
  match d with
  | .jobj fs =>
    match dget fs "name", dget fs "type" with
    | some nv, some tv =>
      .ok ⟨pyStr nv, pyStr tv, pyBool (dgetD fs "nullable" (.jbool true))⟩
    | _, _ => .error "KeyError"
  | _ => .error "TypeError: not a dict"

/-- The `Manifest` dataclass as built by `from_dict`.  `shards` keeps the raw
JSON elements: the list comprehension `[x for x in d.get("shards", [])]` does
not coerce them, and `validate()` then type-checks each one. -/
structure ManifestE where
  manifest_version : Int
  table_name : String
  table_id : String
  rows_per_shard : Int
  created_at : String
  schema : List ColumnInfo
  shards : List JVal
deriving Repr

/-- `Manifest.validate` (manifest.py:48-61): the five scalar fields are
already of the right type after `from_dict`'s coercions and the schema columns
were validated at construction, so the only check that can fail is that every
shard entry is a string. -/
def manifestValidate (m : ManifestE) : Except String Unit :=
  if m.shards.all (fun s => match s with | .jstr _ => true | _ => false) then .ok ()
  else .error "TypeError: Expected type str"

/-- `Manifest.from_dict` (manifest.py:74-86).  `freshId` models
`str(uuid.uuid4())` and `nowStr` models `_curr_date()`.  A non-object `d`
fails (`d.get` / AttributeError); a non-list `schema`/`shards` value fails
(the only deviation: iterating a string or dict would succeed char/key-wise in
Python, a case no manifest document exercises). -/
def manifestFromDict (d : JVal) (freshId nowStr : String) : Except String ManifestE :=
  match d with
  | .jobj fs =>
    match pyInt (dgetD fs "manifest_version" (.jnum 1)) with
    | .error e => .error e
    | .ok mv =>
      match pyInt (dgetD fs "rows_per_shard" (.jnum 100)) with
      | .error e => .error e
      | .ok rps =>
        match (match dgetD fs "schema" (.jarr []) with
               | .jarr xs => xs.mapM colInfoFromDict
               | _ => .error "TypeError: not a list of dicts") with
        | .error e => .error e
        | .ok schema =>
          match (match dgetD fs "shards" (.jarr []) with
                 | .jarr xs => Except.ok xs
                 | _ => .error "TypeError: not iterable") with
          | .error e => .error e
          | .ok shards =>
            let m : ManifestE :=
              ⟨mv, pyStr (dgetD fs "table_name" (.jstr "")),
               pyStr (dgetD fs "table_id" (.jstr freshId)), rps,
               pyStr (dgetD fs "created_at" (.jstr nowStr)), schema, shards⟩
            match manifestValidate m with
            | .error e => .error e
            | .ok _ => .ok m
  | _ => .error "AttributeError: object has no attribute get"

/-! ## Worker insert (worker/worker.py) -/

/-- One pyarrow cell: `none` is a null; values are opaque. -/
abbrev Cell := Option String

/-- A pyarrow table: named columns in order, each a list of cells. -/
abbrev ArrowTable := List (String × List Cell)

def lookupCol (tb : ArrowTable) (n : String) : Option (List Cell) :=
  match tb with
  | [] => none
  | (k, v) :: rest => if k = n then some v else lookupCol rest n

/-- The per-column loop of `_validate_insert_table` (worker.py:164-179), in
schema order: nullability check first, then the `DUCKDB_TO_ARROW` lookup +
`pa.compute.cast(..., safe=True)`, modelled by the external `castFn`. -/
def validateColsLoop (castFn : String → List Cell → Except String (List Cell))
    (tbSel : ArrowTable) : List ColumnInfo → Except String ArrowTable
  | [] => .ok []
  | c :: rest =>
    match lookupCol tbSel c.name with
    | none => .error "KeyError"
    | some arr =>
      if c.nullable = false ∧ none ∈ arr then
        .error ("Column '" ++ c.name ++ "' is NOT NULL but has nulls")
      else
        match castFn c.type arr with
        | .error _ => .error ("Column '" ++ c.name ++ "' cannot be safely cast")
        | .ok casted =>
          match validateColsLoop castFn tbSel rest with
          | .error e => .error e
          | .ok restT => .ok ((c.name, casted) :: restT)

/-- `_validate_insert_table` (worker.py:141-181): missing columns error,
extra columns error, then `tb.select` reorders to schema order and the column
loop runs. -/
def validateInsertTable (castFn : String → List Cell → Except String (List Cell))
    (tb : ArrowTable) (schema : List ColumnInfo) : Except String ArrowTable :=
  if (schema.map (·.name)).filter (fun n => ¬ (tb.map (·.1)).contains n) ≠ [] then
    .error "Missing required columns"
  else if (tb.map (·.1)).filter (fun n => ¬ (schema.map (·.name)).contains n) ≠ [] then
    .error "Unexpected columns"
  else
    validateColsLoop castFn
      (schema.filterMap (fun c => (lookupCol tb c.name).map (fun v => (c.name, v))))
      schema

/-- `_get_shard_i` (worker.py:136-138) for canonical `shard-N.parquet` names:
non-matching names yield 0, a matching name with non-numeric middle raises
(`int()` failure). -/
def getShardI (s : String) : Except String Nat :=
  if s.startsWith "shard-" ∧ s.endsWith ".parquet" then
    (if allDigits ((s.drop 6).dropRight 8) then
      .ok (digitsToInt ((s.drop 6).dropRight 8)).toNat
    else .error "ValueError: invalid literal for int()")
  else .ok 0

/-- On-disk + manifest state of one table as `worker_insert` sees it. -/
structure WTableState where
  tableExists : Bool
  manifestExists : Bool
  schema : List ColumnInfo
  manifestShards : List String
  manifestRowsPerShard : Nat
  dirFiles : List String
deriving Repr, DecidableEq

structure WInsertReq where
  table : String
  srcSuffix : String
  srcData : ArrowTable
  rowsPerShard : Option Nat
deriving Repr, DecidableEq

/-- Number of rows of an arrow table (all columns have equal length). -/
def numRows (tb : ArrowTable) : Nat :=
  (tb.head?.map (fun p => p.2.length)).getD 0

/-- `worker_insert` (worker.py:184-244) up to (but excluding) the writes:
suffix dispatch, table/manifest existence, `last_shard` from the existing
shard names, `rows_per_shard` override, validation.  On success it returns
the new shard file names: `ds.write_dataset` splits the rows into
`ceil(rows / rows_per_shard)` files `tmp_shard-i.parquet`, which the rename
loop turns into `shard-(last_shard+i).parquet` in index order. -/
def workerInsertCore (castFn : String → List Cell → Except String (List Cell))
    (st : WTableState) (req : WInsertReq) : Except String (List String) :=
  if ¬ (req.srcSuffix = ".csv" ∨ req.srcSuffix = ".parquet" ∨ req.srcSuffix = ".pq") then
    .error ("Unsupported file type: " ++ req.srcSuffix)
  else if ¬ st.tableExists then
    .error ("Table '" ++ req.table ++ "' doesn't exist")
  else if ¬ st.manifestExists then
    .error ("Table '" ++ req.table ++ "' doesn't have a Manifest")
  else
    match (if st.manifestShards = [] then Except.ok 0
           else (st.manifestShards.mapM getShardI).map (fun l => l.foldl max 0 + 1)) with
    | .error e => .error e
    | .ok lastShard =>
      match validateInsertTable castFn req.srcData st.schema with
      | .error e => .error e
      | .ok tb =>
        let rps := req.rowsPerShard.getD st.manifestRowsPerShard
        .ok ((List.range (ceilDiv (numRows tb) rps)).map
          (fun i => "shard-" ++ toString (lastShard + i) ++ ".parquet"))

/-- `worker_insert` with its state effects: an exception anywhere leaves the
directory and the manifest untouched; success appends the new shards to both
and persists the manifest last. -/
def workerInsert (castFn : String → List Cell → Except String (List Cell))
    (st : WTableState) (req : WInsertReq) : WTableState × Except String String :=
  match workerInsertCore castFn st req with
  | .error e => (st, .error e)
  | .ok newNames =>
    ({ st with
        dirFiles := st.dirFiles ++ newNames
        manifestShards := st.manifestShards ++ newNames },
     .ok ("Successfully inserted data into table '" ++ req.table ++ "'"))

/-! ## Orchestrator dispatch kinds (orchestrator.py) -/

structure TaskResp where
  ok : Bool
  result : Option String
  error : Option String
deriving Repr, DecidableEq

structure ExternalQueryResponse where
  ok : Bool
  kind : String
  worker_id : Option String
  worker_url : Option String
  result : Option String
  error : Option String
deriving Repr, DecidableEq

/-- `orchestrate_create` (orchestrator.py:38-66).  `send` models
`send_task(chosen.base_url, task, "create")`; the worker chosen is
`list_active()[0]`.  Note line 40: `kind: KindType = "select"`. -/
def orchestrateCreate (_q : CreateQuery) (workers : List WorkerInfo)
    (send : WorkerInfo → TaskResp) : ExternalQueryResponse :=
  match workers with
  | [] => ⟨false, "select", none, none, none, some "No active workers"⟩
  | chosen :: _ =>
    let resp := send chosen
    ⟨resp.ok, "select", some chosen.worker_id, some chosen.base_url, resp.result, resp.error⟩

/-- `orchestrate_drop` (orchestrator.py:69-96), `kind = "drop"`. -/
def orchestrateDrop (_q : DropQuery) (workers : List WorkerInfo)
    (send : WorkerInfo → TaskResp) : ExternalQueryResponse :=
  match workers with
  | [] => ⟨false, "drop", none, none, none, some "No active workers"⟩
  | chosen :: _ =>
    let resp := send chosen
    ⟨resp.ok, "drop", some chosen.worker_id, some chosen.base_url, resp.result, resp.error⟩

/-- `orchestrate_insert` (orchestrator.py:99-127), `kind = "insert"`. -/
def orchestrateInsert (_q : InsertQuery) (workers : List WorkerInfo)
    (send : WorkerInfo → TaskResp) : ExternalQueryResponse :=
  match workers with
  | [] => ⟨false, "insert", none, none, none, some "No active workers"⟩
  | chosen :: _ =>
    let resp := send chosen
    ⟨resp.ok, "insert", some chosen.worker_id, some chosen.base_url, resp.result, resp.error⟩

/-- The dispatch of `route_external_query` (orchestrator.py:313-340) on an
already-parsed query: each variant goes to its orchestrator; the SELECT path
(plan + dispatch loop) is abstracted as `selectHandler`.  The trailing
`kind="unknown"` response is unreachable for a parsed query. -/
def routeDispatch (pq : ParsedQuery) (workers : List WorkerInfo)
    (send : WorkerInfo → TaskResp)
    (selectHandler : SelectQuery → ExternalQueryResponse) : ExternalQueryResponse :=
  match pq with
  | .createQ q => orchestrateCreate q workers send
  | .dropQ q => orchestrateDrop q workers send
  | .insertQ q => orchestrateInsert q workers send
  | .selectQ q => selectHandler q

/-! ## C6: Manifest.load is lenient, not strict -/

/-- C6 counterexample: a document with `manifest_version = 2` and an unknown
key loads successfully (the claim says it must error). -/
theorem manifest_load_strict_counterexample :
    manifestFromDict
      (.jobj [("manifest_version", .jnum 2), ("unknown_key", .jnum 5)])
      "id-0" "t-0" =
    .ok ⟨2, "", "id-0", 100, "t-0", [], []⟩ := rfl

/-- C6 amended: `Manifest.from_dict` ignores unknown keys and accepts any
integer `manifest_version`; fields that are absent take their defaults.  (It
errors only on coercion/type failures, e.g. a non-numeric version string or a
non-string shard entry.) -/
theorem manifest_load_lenient (fs : List (String × JVal)) (v : Int)
    (freshId nowStr : String)
    (h1 : dget fs "manifest_version" = some (.jnum v))
    (h2 : dget fs "rows_per_shard" = none)
    (h3 : dget fs "schema" = none)
    (h4 : dget fs "shards" = none) :
    ∃ m, manifestFromDict (.jobj fs) freshId nowStr = .ok m ∧
      m.manifest_version = v := by
  refine ⟨⟨v, pyStr (dgetD fs "table_name" (.jstr "")),
          pyStr (dgetD fs "table_id" (.jstr freshId)), 100,
          pyStr (dgetD fs "created_at" (.jstr nowStr)), [], []⟩, ?_, rfl⟩
  simp only [manifestFromDict, dgetD, h1, h2, h3, h4]
  rfl

/-- C6 witness for the amended claim: version 2 plus an extra key. -/
theorem manifest_load_lenient_witness :
    (dget [("manifest_version", JVal.jnum 2), ("extra", JVal.jstr "x")]
        "manifest_version" = some (.jnum 2)) ∧
    (dget [("manifest_version", JVal.jnum 2), ("extra", JVal.jstr "x")]
        "rows_per_shard" = none) ∧
    (dget [("manifest_version", JVal.jnum 2), ("extra", JVal.jstr "x")]
        "schema" = none) ∧
    (dget [("manifest_version", JVal.jnum 2), ("extra", JVal.jstr "x")]
        "shards" = none) ∧
    ∃ m, manifestFromDict
        (.jobj [("manifest_version", JVal.jnum 2), ("extra", JVal.jstr "x")])
        "id-1" "t-1" = .ok m ∧ m.manifest_version = 2 :=
  ⟨rfl, rfl, rfl, rfl, manifest_load_lenient _ 2 "id-1" "t-1" rfl rfl rfl rfl⟩

/-! ## C8: insert nullability validation precedes all writes -/

theorem lookup_sel {tb : ArrowTable} {c : ColumnInfo} {ar : List Cell}
    (har : lookupCol tb c.name = some ar) :
    ∀ schema : List ColumnInfo, c ∈ schema →
      lookupCol (schema.filterMap
        (fun c' => (lookupCol tb c'.name).map (fun v => (c'.name, v)))) c.name =
      some ar := by
  intro schema
  induction schema with
  | nil => intro h; cases h
  | cons hd tl ih =>
    intro hmem
    by_cases hn : hd.name = c.name
    · rw [List.filterMap_cons]
      rw [hn, har]
      show lookupCol ((c.name, ar) :: _) c.name = some ar
      unfold lookupCol
      rw [if_pos rfl]
    · have hmem' : c ∈ tl := by
        rcases List.mem_cons.mp hmem with he | ht
        · exact absurd (congrArg ColumnInfo.name he.symm) hn
        · exact ht
      rw [List.filterMap_cons]
      cases hl : lookupCol tb hd.name with
      | none => simpa using ih hmem'
      | some v =>
        show lookupCol ((hd.name, v) :: _) c.name = some ar
        unfold lookupCol
        rw [if_neg hn]
        exact ih hmem'

theorem validateColsLoop_not_ok
    {castFn : String → List Cell → Except String (List Cell)}
    {tbSel : ArrowTable} {c : ColumnInfo} {ar : List Cell}
    (hnn : c.nullable = false) (hsel : lookupCol tbSel c.name = some ar)
    (hnull : none ∈ ar) :
    ∀ schema : List ColumnInfo, c ∈ schema →
      ∀ r, validateColsLoop castFn tbSel schema ≠ .ok r := by
  intro schema
  induction schema with
  | nil => intro h; cases h
  | cons hd tl ih =>
    intro hmem r h
    rcases List.mem_cons.mp hmem with he | ht
    · subst he
      rw [validateColsLoop] at h
      split at h
      · exact absurd h (by simp)
      · rename_i arr2 heq
        rw [hsel] at heq
        injection heq with harr
        subst harr
        rw [if_pos ⟨hnn, hnull⟩] at h
        exact absurd h (by simp)
    · rw [validateColsLoop] at h
      split at h
      · exact absurd h (by simp)
      · split at h
        · exact absurd h (by simp)
        · split at h
          · exact absurd h (by simp)
          · split at h
            · exact absurd h (by simp)
            · rename_i restT hrec
              exact ih ht restT hrec

theorem validateInsertTable_not_ok
    {castFn : String → List Cell → Except String (List Cell)}
    {tb : ArrowTable} {c : ColumnInfo} {ar : List Cell} {schema : List ColumnInfo}
    (hc : c ∈ schema) (hnn : c.nullable = false)
    (har : lookupCol tb c.name = some ar) (hnull : none ∈ ar) :
    ∀ r, validateInsertTable castFn tb schema ≠ .ok r := by
  intro r h
  unfold validateInsertTable at h
  split at h
  · exact absurd h (by simp)
  · split at h
    · exact absurd h (by simp)
    · exact validateColsLoop_not_ok hnn (lookup_sel har schema hc) hnull schema hc r h

/-- C8: inserting data with a null in a NOT NULL column makes `worker_insert`
raise before any shard is written or the manifest saved: the result is an
error and the table state (directory files and manifest shard list) is
exactly the input state. -/
theorem insert_null_leaves_state
    (castFn : String → List Cell → Except String (List Cell))
    (st : WTableState) (req : WInsertReq) (c : ColumnInfo) (ar : List Cell)
    (hc : c ∈ st.schema) (hnn : c.nullable = false)
    (har : lookupCol req.srcData c.name = some ar) (hnull : none ∈ ar) :
    (workerInsert castFn st req).1 = st ∧
    ∃ e, (workerInsert castFn st req).2 = .error e := by
  have hcore : ∀ r, workerInsertCore castFn st req ≠ .ok r := by
    intro r h
    unfold workerInsertCore at h
    split at h
    · exact absurd h (by simp)
    · split at h
      · exact absurd h (by simp)
      · split at h
        · exact absurd h (by simp)
        · cases hls : (if st.manifestShards = [] then Except.ok 0
              else (st.manifestShards.mapM getShardI).map (fun l => l.foldl max 0 + 1)) with
          | error e => rw [hls] at h; exact absurd h (by simp)
          | ok lastShard =>
            rw [hls] at h
            cases hv : validateInsertTable castFn req.srcData st.schema with
            | error e => rw [hv] at h; exact absurd h (by simp)
            | ok tb => exact validateInsertTable_not_ok hc hnn har hnull tb hv
  cases hres : workerInsertCore castFn st req with
  | error e =>
    unfold workerInsert
    rw [hres]
    exact ⟨rfl, e, rfl⟩
  | ok newNames => exact absurd hres (hcore newNames)

/-- C8 witness: one non-nullable int column whose single row is null. -/
theorem insert_null_leaves_state_witness :
    (⟨"a", "int", false⟩ ∈
      (WTableState.mk true true [⟨"a", "int", false⟩] [] 100 []).schema) ∧
    ((⟨"a", "int", false⟩ : ColumnInfo).nullable = false) ∧
    (lookupCol [("a", [(none : Cell)])] "a" = some [(none : Cell)]) ∧
    ((none : Cell) ∈ [(none : Cell)]) ∧
    ((workerInsert (fun _ arr => .ok arr)
        (WTableState.mk true true [⟨"a", "int", false⟩] [] 100 [])
        (WInsertReq.mk "t" ".csv" [("a", [(none : Cell)])] none)).1 =
      WTableState.mk true true [⟨"a", "int", false⟩] [] 100 [] ∧
     ∃ e, (workerInsert (fun _ arr => .ok arr)
        (WTableState.mk true true [⟨"a", "int", false⟩] [] 100 [])
        (WInsertReq.mk "t" ".csv" [("a", [(none : Cell)])] none)).2 = .error e) :=
  ⟨by decide, rfl, rfl, by decide,
   insert_null_leaves_state (fun _ arr => .ok arr)
     (WTableState.mk true true [⟨"a", "int", false⟩] [] 100 [])
     (WInsertReq.mk "t" ".csv" [("a", [(none : Cell)])] none)
     ⟨"a", "int", false⟩ [(none : Cell)] (by decide) rfl rfl (by decide)⟩

/-! ## C10: the CREATE path reports kind "select" -/

/-- C10: `orchestrate_create` hard-codes `kind = "select"` (orchestrator.py:40)
in both the no-active-workers error response and the normal response, and
`route_external_query` forwards its response unchanged for CREATE queries —
while the DROP and INSERT paths report `"drop"` and `"insert"`. -/
theorem create_kind_select (q : CreateQuery) (qd : DropQuery) (qi : InsertQuery)
    (workers : List WorkerInfo) (send : WorkerInfo → TaskResp)
    (sh : SelectQuery → ExternalQueryResponse) :
    (orchestrateCreate q workers send).kind = "select" ∧
    routeDispatch (.createQ q) workers send sh = orchestrateCreate q workers send ∧
    (orchestrateDrop qd workers send).kind = "drop" ∧
    (orchestrateInsert qi workers send).kind = "insert" := by
  refine ⟨?_, rfl, ?_, ?_⟩ <;> cases workers <;> rfl

/-! ## C9: preprocessing is idempotent up to parsing

Key facts about the source chain (parser.py:27-39): on an already-preprocessed
string the lowering is a no-op, the multi-word keyword gluings are no-ops, and
the comma/paren paddings only widen existing whitespace runs, so the token
list — and hence `parse` — is unchanged. -/

/-- Single-character `str.replace`: each occurrence of `c` becomes `r`. -/
def padChar (c : Char) (r : List Char) : List Char → List Char
  | [] => []
  | x :: xs => (if x = c then r else [x]) ++ padChar c r xs

theorem replaceAllFuel_single (c : Char) (r : List Char) :
    ∀ (fuel : Nat) (l : List Char), l.length ≤ fuel →
      replaceAllFuel [c] r fuel l = padChar c r l := by
  intro fuel
  induction fuel with
  | zero =>
    intro l hl
    have : l = [] := List.length_eq_zero.mp (Nat.le_zero.mp hl)
    subst this
    rfl
  | succ fuel ih =>
    intro l hl
    cases l with
    | nil => rfl
    | cons x xs =>
      have hxs : xs.length ≤ fuel := by
        simp only [List.length_cons] at hl
        omega
      by_cases hx : c = x
      · rw [replaceAllFuel, if_pos ⟨by simp, by simp [List.isPrefixOf, hx]⟩]
        rw [padChar, if_pos hx.symm]
        simp only [List.length_cons, List.length_nil]
        rw [List.drop_zero]
        rw [ih xs hxs]
      · rw [replaceAllFuel, if_neg (by simp [List.isPrefixOf, hx])]
        rw [padChar, if_neg (fun h => hx h.symm)]
        rw [ih xs hxs]
        rfl

/-- `str.replace` with a one-character pattern is a per-character expansion. -/
theorem replaceAll_single (c : Char) (r : List Char) (l : List Char) :
    replaceAll [c] r l = padChar c r l :=
  replaceAllFuel_single c r l.length l le_rfl

/-- Every occurrence of `c` in the list has a literal space immediately on
both sides (`prev` is the previously scanned character). -/
def headIsSpace : List Char → Bool
  | y :: _ => y == ' '
  | [] => false

def spaceFlankedAux (c : Char) (prev : Option Char) : List Char → Bool
  | [] => true
  | x :: xs =>
    if x = c then
      (prev == some ' ') && (headIsSpace xs && spaceFlankedAux c (some x) xs)
    else spaceFlankedAux c (some x) xs

def spaceFlanked (c : Char) (l : List Char) : Bool :=
  spaceFlankedAux c none l

theorem splitWsAux_space (cs : List Char) (acc : List Char) :
    splitWsAux (' ' :: cs) acc =
      if acc.isEmpty then splitWsAux cs []
      else String.mk acc.reverse :: splitWsAux cs [] := by
  rw [splitWsAux, if_pos (by decide)]

theorem splitWsAux_space_nil (cs : List Char) :
    splitWsAux (' ' :: cs) [] = splitWsAux cs [] := by
  rw [splitWsAux_space]
  rfl

theorem splitWsAux_space_acc (cs : List Char) (a : Char) (as : List Char) :
    splitWsAux (' ' :: cs) (a :: as) =
      String.mk (a :: as).reverse :: splitWsAux cs [] := by
  rw [splitWsAux_space]
  rfl

theorem splitWsAux_nonws {x : Char} (hx : isWs x = false) (cs acc : List Char) :
    splitWsAux (x :: cs) acc = splitWsAux cs (x :: acc) := by
  rw [splitWsAux, if_neg (by simp [hx])]

/-- Padding a character that is already space-flanked does not change the
whitespace-split token list.  The invariant: right after scanning a space the
token accumulator is empty. -/
theorem padTokens (c : Char) (hws : isWs c = false) :
    ∀ (N : Nat) (l : List Char), l.length ≤ N →
      ∀ (prev : Option Char) (acc : List Char),
        spaceFlankedAux c prev l = true →
        (prev = some ' ' → acc = []) →
        splitWsAux (padChar c [' ', c, ' '] l) acc = splitWsAux l acc := by
  intro N
  induction N with
  | zero =>
    intro l hl prev acc _ _
    have : l = [] := List.length_eq_zero.mp (Nat.le_zero.mp hl)
    subst this
    rfl
  | succ N ih =>
    intro l hl prev acc H inv
    cases l with
    | nil => rfl
    | cons x xs =>
      have hcsp : c ≠ ' ' := by
        intro h
        rw [h] at hws
        exact absurd hws (by decide)
      by_cases hxc : x = c
      · rw [spaceFlankedAux, if_pos hxc] at H
        simp only [Bool.and_eq_true] at H
        obtain ⟨hprev, hnext, H3⟩ := H
        have hacc : acc = [] := inv (eq_of_beq hprev)
        subst hacc
        cases xs with
        | nil => exact absurd hnext (by decide)
        | cons y xs' =>
          have hy : y = ' ' := eq_of_beq (by simpa [headIsSpace] using hnext)
          subst hy
          have H4 : spaceFlankedAux c (some x) (' ' :: xs') = true := H3
          rw [spaceFlankedAux, if_neg (fun h => hcsp h.symm)] at H4
          have hlen : xs'.length ≤ N := by
            simp only [List.length_cons] at hl
            omega
          have hrec := ih xs' hlen (some ' ') [] H4 (fun _ => rfl)
          have e1 : padChar c [' ', c, ' '] (c :: ' ' :: xs') =
              ' ' :: c :: ' ' :: ' ' :: padChar c [' ', c, ' '] xs' := by
            rw [padChar, if_pos rfl, padChar, if_neg (fun h => hcsp h.symm)]
            rfl
          rw [hxc, e1, splitWsAux_space_nil, splitWsAux_nonws hws,
            splitWsAux_space_acc, splitWsAux_space_nil, hrec,
            splitWsAux_nonws hws, splitWsAux_space_acc]
      · have H' : spaceFlankedAux c (some x) xs = true := by
          rw [spaceFlankedAux, if_neg hxc] at H
          exact H
        have hlen : xs.length ≤ N := by
          simp only [List.length_cons] at hl
          omega
        rw [padChar, if_neg hxc, List.cons_append, List.nil_append]
        by_cases hwx : isWs x = true
        · rw [splitWsAux, if_pos hwx, splitWsAux, if_pos hwx]
          have hrec := ih xs hlen (some x) [] H' (fun _ => rfl)
          by_cases hae : acc.isEmpty = true
          · rw [if_pos hae, if_pos hae, hrec]
          · rw [if_neg hae, if_neg hae, hrec]
        · have hwx' : isWs x = false := by
            cases h : isWs x
            · rfl
            · exact absurd h hwx
          rw [splitWsAux_nonws hwx', splitWsAux_nonws hwx']
          refine ih xs hlen (some x) (x :: acc) H' ?_
          intro hsp
          injection hsp with hx
          rw [hx] at hwx'
          exact absurd hwx' (by decide)

theorem padChar_tokens (c : Char) (hws : isWs c = false) (l : List Char)
    (h : spaceFlanked c l = true) :
    splitWsAux (padChar c [' ', c, ' '] l) [] = splitWsAux l [] :=
  padTokens c hws l.length l le_rfl none [] h (fun hsp => nomatch hsp)

/-- `t` is a fixed point of preprocessing, stage by stage: lowering and the
keyword gluings are no-ops on it, and its commas and parens already carry a
space on both sides.  Every output of `preprocess` on a well-formed query
satisfies this (each condition is decidable). -/
def preStable (t : String) : Prop :=
  lowerOutsideQuotes t.data = t.data ∧
  replaceAll "group by".data "group_by".data t.data = t.data ∧
  replaceAll "is null".data "is_null".data
    (padChar ')' [' ', ')', ' '] (padChar '(' [' ', '(', ' ']
      (padChar ',' [' ', ',', ' '] t.data))) =
    padChar ')' [' ', ')', ' '] (padChar '(' [' ', '(', ' ']
      (padChar ',' [' ', ',', ' '] t.data)) ∧
  replaceAll "is not null".data "is_not_null".data
    (padChar ')' [' ', ')', ' '] (padChar '(' [' ', '(', ' ']
      (padChar ',' [' ', ',', ' '] t.data))) =
    padChar ')' [' ', ')', ' '] (padChar '(' [' ', '(', ' ']
      (padChar ',' [' ', ',', ' '] t.data)) ∧
  replaceAll "if not exists".data "if_not_exists".data
    (padChar ')' [' ', ')', ' '] (padChar '(' [' ', '(', ' ']
      (padChar ',' [' ', ',', ' '] t.data))) =
    padChar ')' [' ', ')', ' '] (padChar '(' [' ', '(', ' ']
      (padChar ',' [' ', ',', ' '] t.data)) ∧
  replaceAll "if exists".data "if_exists".data
    (padChar ')' [' ', ')', ' '] (padChar '(' [' ', '(', ' ']
      (padChar ',' [' ', ',', ' '] t.data))) =
    padChar ')' [' ', ')', ' '] (padChar '(' [' ', '(', ' ']
      (padChar ',' [' ', ',', ' '] t.data)) ∧
  replaceAll "rows per shard".data "rows_per_shard".data
    (padChar ')' [' ', ')', ' '] (padChar '(' [' ', '(', ' ']
      (padChar ',' [' ', ',', ' '] t.data))) =
    padChar ')' [' ', ')', ' '] (padChar '(' [' ', '(', ' ']
      (padChar ',' [' ', ',', ' '] t.data)) ∧
  spaceFlanked ',' t.data = true ∧
  spaceFlanked '(' (padChar ',' [' ', ',', ' '] t.data) = true ∧
  spaceFlanked ')' (padChar '(' [' ', '(', ' ']
    (padChar ',' [' ', ',', ' '] t.data)) = true

instance (t : String) : Decidable (preStable t) := by
  unfold preStable
  infer_instance

/-- On a stage-stable string, preprocessing leaves the token list unchanged. -/
theorem preStable_tokens {t : String} (h : preStable t) :
    pyTokens (preprocess t) = pyTokens t := by
  obtain ⟨h1, h2, h3, h4, h5, h6, h7, hf1, hf2, hf3⟩ := h
  have e : preprocess t =
      String.mk (padChar ')' [' ', ')', ' '] (padChar '(' [' ', '(', ' ']
        (padChar ',' [' ', ',', ' '] t.data))) := by
    unfold preprocess
    rw [h1, h2]
    rw [replaceAll_single ',' [' ', ',', ' '], replaceAll_single '(' [' ', '(', ' '],
        replaceAll_single ')' [' ', ')', ' ']]
    rw [h3, h4, h5, h6, h7]
  rw [e]
  show splitWsAux (padChar ')' [' ', ')', ' '] (padChar '(' [' ', '(', ' ']
    (padChar ',' [' ', ',', ' '] t.data))) [] = splitWsAux t.data []
  rw [padChar_tokens ')' (by decide) _ hf3]
  rw [padChar_tokens '(' (by decide) _ hf2]
  rw [padChar_tokens ',' (by decide) _ hf1]

/-- C9: preprocessing is idempotent up to parsing.  `parse` itself begins by
preprocessing (parser.py:43), so the claim's two sides preprocess the input
twice and three times respectively; both collapse to the same token list as
soon as the preprocessed forms are stage-stable — which every well-formed
SQL-subset input produces. -/
theorem preprocess_idempotent_parse (s : String)
    (H1 : preStable (preprocess s))
    (H2 : preStable (preprocess (preprocess s))) :
    parse (preprocess s) = parse (preprocess (preprocess s)) := by
  unfold parse
  rw [preStable_tokens H2, preStable_tokens H1]

/-- C9 witness: a representative well-formed query (aggregates, WHERE with a
quoted literal, GROUP BY). -/
theorem preprocess_idempotent_parse_witness :
    preStable (preprocess
      "SELECT event_type, COUNT(*) FROM events WHERE name = 'Alice' AND value >= 0 GROUP BY event_type") ∧
    preStable (preprocess (preprocess
      "SELECT event_type, COUNT(*) FROM events WHERE name = 'Alice' AND value >= 0 GROUP BY event_type")) ∧
    parse (preprocess
      "SELECT event_type, COUNT(*) FROM events WHERE name = 'Alice' AND value >= 0 GROUP BY event_type") =
    parse (preprocess (preprocess
      "SELECT event_type, COUNT(*) FROM events WHERE name = 'Alice' AND value >= 0 GROUP BY event_type")) :=
  ⟨by decide, by decide,
   preprocess_idempotent_parse _ (by decide) (by decide)⟩

end MiniSnowflake
